import Mathlib

/-
Verification development for the Channel-Manager repository (src/main.py).

Shallow embedding conventions:
- a task record mirrors the row of table userbot_tasks_v11 and the dict
  built in create_task_logic; the Task Store is a list of rows.
- wall-clock instants are integers counting seconds; a Python
  timedelta(minutes=m) is 60*m seconds and timedelta(seconds=s) is s.
- Python truthiness of optional strings/ints is made explicit
  (None and empty string / zero are falsy).
- fallible external effects (session lookup, publish, DB write) are
  inputs of the fire environment; the observable side effects of one
  job_func invocation are recorded as an event trace.
-/

namespace ChannelManager

/-- A row of userbot_tasks_v11, as built by create_task_logic in src/main.py. -/
structure Task where
  task_id : String
  owner_id : Nat
  chat_id : Int
  content_type : String
  content_text : String
  file_id : Option String
  entities : Option String
  pin : Bool
  delete_old : Bool
  auto_delete_offset : Int
  repeat_interval : Option String
  start_time : Int
  last_msg_id : Option Nat
  reply_target : Option String
deriving Repr, DecidableEq

/-- The Task Store: the rows of userbot_tasks_v11. -/
abbrev Store := List Task

/-- Python truthiness of an optional string (None and empty are falsy). -/
def truthyStr : Option String → Bool
  | none => false
  | some s => s != ""

/-- Python truthiness of an optional integer (None and 0 are falsy). -/
def truthyNat : Option Nat → Option Nat
  | none => none
  | some v => if v == 0 then none else some v

/-- save_task (src/main.py lines 139-147): INSERT with
ON CONFLICT (task_id) DO UPDATE SET last_msg_id, start_time.
On conflict only those two columns are updated; all other columns keep
the previously stored values. -/
def save_task (store : Store) (t : Task) : Store :=
  if store.any (fun r => r.task_id == t.task_id) then
    store.map (fun r =>
      if r.task_id == t.task_id then
        { r with last_msg_id := t.last_msg_id, start_time := t.start_time }
      else r)
  else store ++ [t]

/-- get_single_task (src/main.py lines 235-238). -/
def get_single_task (store : Store) (tid : String) : Option Task :=
  store.find? (fun r => r.task_id == tid)

/-- delete_task (src/main.py lines 240-244): DELETE WHERE task_id = tid. -/
def delete_task (store : Store) (tid : String) : Store :=
  store.filter (fun r => r.task_id != tid)

/-- update_last_msg (src/main.py lines 246-248): UPDATE SET last_msg_id. -/
def update_last_msg (store : Store) (tid : String) (msg : Nat) : Store :=
  store.map (fun r =>
    if r.task_id == tid then { r with last_msg_id := some msg } else r)

/-- get_task_last_msg_id (src/main.py lines 250-252): fetchval returns
NULL both when the row is missing and when the column is NULL. -/
def get_task_last_msg_id (store : Store) (tid : String) : Option Nat :=
  match store.find? (fun r => r.task_id == tid) with
  | some r => r.last_msg_id
  | none => none

/-- update_next_run (src/main.py lines 254-256): UPDATE SET start_time. -/
def update_next_run (store : Store) (tid : String) (tnew : Int) : Store :=
  store.map (fun r =>
    if r.task_id == tid then { r with start_time := tnew } else r)

/-- Python str.split("=") on a character list. -/
def pySplitEq : List Char → List (List Char)
  | [] => [[]]
  | c :: rest =>
    let r := pySplitEq rest
    if c == '=' then [] :: r
    else
      match r with
      | [] => [[c]]
      | h :: t => (c :: h) :: t

/-- Python int(str) on a character list, for the digit strings (with an
optional leading minus sign) that interval values take; anything else
raises ValueError, modelled as none. -/
def pyParseInt (cs : List Char) : Option Int :=
  match cs with
  | [] => none
  | '-' :: ds =>
    if ds != [] && ds.all Char.isDigit then
      some (-(Int.ofNat (ds.foldl (fun a c => 10 * a + (c.toNat - 48)) 0)))
    else none
  | ds =>
    if ds.all Char.isDigit then
      some (Int.ofNat (ds.foldl (fun a c => 10 * a + (c.toNat - 48)) 0))
    else none

/-- int(t["repeat_interval"].split("=")[1]) in minutes; in Python an index
or parse error is caught by the surrounding bare except, modelled as none. -/
def parseIntervalMins (s : String) : Option Int :=
  match (pySplitEq s.toList).get? 1 with
  | some part => pyParseInt part
  | none => none

example : parseIntervalMins "minutes=1440" = some 1440 := by decide
example : parseIntervalMins "minutes=" = none := by decide
example : parseIntervalMins "1440" = none := by decide

/-- Observable side effects of one job_func invocation
(src/main.py lines 1214-1391), in the order they are performed. -/
inductive Ev where
  | deleteMsg (chat : Int) (ref : Nat)
  | send (replyTo : Option Nat)
  | pin
  | updateLastMsg (ref : Nat)
  | scheduleDel (runAt : Int) (ref : Nat)
  | deleteTask
  | updateNextRun (t : Int)
deriving Repr, DecidableEq

/-- Environment of one fire: the outcomes of the external calls job_func
makes. now is datetime.now at line 1222, nowDel is datetime.now at
line 1362 (taken again after the publish). sendResult is the message id
when the step-6 publish succeeded, none when it failed (its exception is
logged or caught by the outer handler). abortEarly models an exception
inside the body before any side effect, caught at line 1384.
nextRunWriteOk is the update_next_run write in the finally block
(its own except clause swallows a failure). -/
structure FireEnv where
  now : Int
  nowDel : Int
  sessionOk : Bool
  abortEarly : Bool
  sendResult : Option Nat
  nextRunWriteOk : Bool
deriving Repr, DecidableEq

/-- Content types for which step 6 of job_func reaches a send call;
any other content_type string falls through every branch and sent
stays None. -/
def attemptsSend (ct : String) : Bool :=
  ct == "poll" || ct == "text" || ct == "photo" || ct == "video" ||
  ct == "animation" || ct == "document" || ct == "audio" ||
  ct == "voice" || ct == "sticker"

/-- Step 4 of job_func (lines 1247-1253): reply_id from the reply_target
task, via get_task_last_msg_id; both the string and the fetched id go
through Python truthiness checks. -/
def replyIdOf (store : Store) (t : Task) : Option Nat :=
  match t.reply_target with
  | some rt => if rt != "" then truthyNat (get_task_last_msg_id store rt) else none
  | none => none

/-- The try body of job_func (src/main.py lines 1228-1385): session
lookup, reply resolution, delete-previous, publish, and the post-send
actions (pin, update_last_msg, auto-delete scheduling, one-shot task
deletion). The internal fast-send/download retry of step 6 is abstracted
into a single publish attempt whose outcome is env.sendResult. Returns
the store after the body plus the event trace of the body. -/
def jobFireBody (tid : String) (t : Task) (env : FireEnv) (store : Store) :
    Store × List Ev :=
  if !env.sessionOk then (store, [])
  else if env.abortEarly then (store, [])
  else
    let reply_id := replyIdOf store t
    let real_last := get_task_last_msg_id store t.task_id
    let delEvs : List Ev :=
      match real_last with
      | some v =>
        if t.delete_old && v != 0 && !(reply_id == some v) then
          [Ev.deleteMsg t.chat_id v]
        else []
      | none => []
    if !attemptsSend t.content_type then (store, delEvs)
    else
      match env.sendResult with
      | none => (store, delEvs ++ [Ev.send reply_id])
      | some mid =>
        let pinEvs : List Ev := if t.pin then [Ev.pin] else []
        let store1 := update_last_msg store tid mid
        let adEvs : List Ev :=
          if t.auto_delete_offset > 0 && truthyStr t.repeat_interval then
            match parseIntervalMins (t.repeat_interval.getD "") with
            | some m =>
              if m - t.auto_delete_offset > 0 then
                [Ev.scheduleDel (env.nowDel + 60 * (m - t.auto_delete_offset)) mid]
              else []
            | none => []
          else []
        if !truthyStr t.repeat_interval then
          (delete_task store1 tid,
           delEvs ++ [Ev.send reply_id] ++ pinEvs ++ [Ev.updateLastMsg mid] ++
           adEvs ++ [Ev.deleteTask])
        else
          (store1,
           delEvs ++ [Ev.send reply_id] ++ pinEvs ++ [Ev.updateLastMsg mid] ++ adEvs)

/-- One invocation of job_func (lines 1214-1391): compute the next run
first (lines 1218-1226), run the try body, then in the finally block
persist the next run time for repeating tasks (lines 1387-1391). -/
def jobFire (tid : String) (t : Task) (env : FireEnv) (store : Store) :
    Store × List Ev :=
  let next_run : Option Int :=
    if truthyStr t.repeat_interval then
      (parseIntervalMins (t.repeat_interval.getD "")).map
        (fun m => env.now + 60 * m)
    else none
  let r := jobFireBody tid t env store
  match next_run with
  | some nr =>
    if truthyStr t.repeat_interval then
      if env.nextRunWriteOk then
        (update_next_run r.1 tid nr, r.2 ++ [Ev.updateNextRun nr])
      else r
    else r
  | none => r

/-- Outcome classifiers for event traces. -/
def isDeleteMsgEv : Ev → Bool
  | Ev.deleteMsg _ _ => true
  | _ => false

def isScheduleDelEv : Ev → Bool
  | Ev.scheduleDel _ _ => true
  | _ => false

def isDeleteTaskEv : Ev → Bool
  | Ev.deleteTask => true
  | _ => false

def isUpdateNextRunEv : Ev → Bool
  | Ev.updateNextRun _ => true
  | _ => false

/-- A fire in which the step-6 publish succeeded: a session existed, no
exception aborted the body, a send branch was reached and it returned a
message. -/
def fireSucceeded (t : Task) (e : FireEnv) : Bool :=
  e.sessionOk && !e.abortEarly && attemptsSend t.content_type && e.sendResult.isSome

/-- N consecutive fires of the same scheduler job, threading the store. -/
def runFires (tid : String) (t : Task) (envs : List FireEnv) (store : Store) :
    Store :=
  envs.foldl (fun s e => (jobFire tid t e s).1) store

/-- The message id of the most recent successful publish in a fire
sequence, starting from a previously stored value. -/
def lastSuccessRef (t : Task) (envs : List FireEnv) (init : Option Nat) :
    Option Nat :=
  envs.foldl (fun acc e => if fireSucceeded t e then e.sendResult else acc) init

/-- def add_scheduler_job(tid, t) at src/main.py line 1211 has two
required parameters and no defaults. -/
def add_scheduler_job_paramCount : Nat := 2

/-- Calling a Python function whose parameters have no defaults with a
different number of positional arguments raises TypeError. -/
def pythonCallFails (paramCount nargs : Nat) : Bool :=
  nargs != paramCount

/-- Per-task step of create_task_logic (src/main.py lines 1188-1194):
await save_task(task_data) then add_scheduler_job(task_data) -- a call
with ONE argument -- inside a try whose except only logs. Returns the
store and the ids of jobs armed in the running scheduler. -/
def create_task_submit (store : Store) (jobs : List String) (t : Task) :
    Store × List String :=
  let store1 := save_task store t
  if pythonCallFails add_scheduler_job_paramCount 1 then (store1, jobs)
  else (store1, jobs ++ [t.task_id])

/-- Boot-time reload (src/main.py lines 1419-1423):
for t in tasks: add_scheduler_job(t['task_id'], t) -- a call with TWO
arguments for every stored task. -/
def boot_reload_arm (store : Store) (jobs : List String) : List String :=
  store.foldl
    (fun s r =>
      if pythonCallFails add_scheduler_job_paramCount 2 then s
      else s ++ [r.task_id])
    jobs

/-- One entry of broadcast_queue: the dict built at src/main.py
lines 838-848 (capture) or lines 1129-1137 (single-post fallback).
reply_to_old records post.get("reply_to_old"); no producer in the
repository ever sets that key, so captured posts carry false. -/
structure Post where
  content_type : String
  content_text : String
  file_id : Option String
  entities : Option String
  pin : Option Bool
  delete_old : Option Bool
  auto_delete_offset : Option Int
  input_msg_id : Nat
  reply_ref_id : Option Nat
  reply_to_old : Bool
deriving Repr, DecidableEq

/-- The broadcast_queue entry captured at src/main.py lines 838-849:
input_msg_id is the incoming message id and reply_ref_id its
reply_to_message id when present; the dict has no reply_to_old key. -/
def capturePost (ct txt : String) (fid ents : Option String)
    (msgId : Nat) (replyRef : Option Nat) : Post :=
  { content_type := ct, content_text := txt, file_id := fid,
    entities := ents, pin := some true, delete_old := some true,
    auto_delete_offset := none, input_msg_id := msgId,
    reply_ref_id := replyRef, reply_to_old := false }

/-- tid = f-string task_{base_tid}_{ch_idx}_{post_idx} (line 1149). -/
def tidOf (base ch i : Nat) : String :=
  "task_" ++ toString base ++ "_" ++ toString ch ++ "_" ++ toString i

/-- One dict assignment batch_map[post["input_msg_id"]] = tid. -/
def bmStep (base ch : Nat) (m : Nat → Option String) (ip : Nat × Post) :
    Nat → Option String :=
  fun x => if x == ip.2.input_msg_id then some (tidOf base ch ip.1) else m x

/-- First pass of create_task_logic (lines 1146-1151): the dict from
input message id to the task id that will publish that post, built over
the whole queue; a later duplicate key overwrites an earlier one. -/
def buildBatchMap (base ch : Nat) (queue : List Post) :
    Nat → Option String :=
  queue.enum.foldl (bmStep base ch) (fun _ => none)

/-- SMART LINKING (lines 1160-1165): target_tid for one post.
The reference goes through Python truthiness and dict membership;
the elif is the reply_to_old fallback to the previous post. -/
def resolveReplyTarget (bm : Nat → Option String) (base ch i : Nat)
    (p : Post) : Option String :=
  match p.reply_ref_id with
  | some r =>
    if r != 0 && (bm r).isSome then bm r
    else if p.reply_to_old && decide (0 < i) then some (tidOf base ch (i - 1))
    else none
  | none =>
    if p.reply_to_old && decide (0 < i) then some (tidOf base ch (i - 1))
    else none

/-- The task_data dict of the second pass (lines 1154-1186), for post i
of the queue. stPin, stDel, stOffset are the wizard-state defaults st.get
falls back to; run_time is start_time + 10 seconds per post index. -/
def mkBatchTask (uid : Nat) (cid : Int) (interval : Option String)
    (startTime : Int) (stPin stDel : Bool) (stOffset : Int)
    (base ch : Nat) (bm : Nat → Option String) (i : Nat) (p : Post) :
    Task :=
  { task_id := tidOf base ch i
    owner_id := uid
    chat_id := cid
    content_type := p.content_type
    content_text := p.content_text
    file_id := p.file_id
    entities := p.entities
    pin := p.pin.getD stPin
    delete_old := p.delete_old.getD stDel
    auto_delete_offset := p.auto_delete_offset.getD stOffset
    repeat_interval := interval
    start_time := startTime + 10 * i
    last_msg_id := none
    reply_target := resolveReplyTarget bm base ch i p }

/-- Both passes of create_task_logic for one target channel
(lines 1144-1186): build the batch map over the whole queue, then build
every task record from it. -/
def createBatchTasks (uid : Nat) (cid : Int) (interval : Option String)
    (startTime : Int) (stPin stDel : Bool) (stOffset : Int)
    (base ch : Nat) (queue : List Post) : List Task :=
  queue.enum.map
    (fun ip =>
      mkBatchTask uid cid interval startTime stPin stDel stOffset base ch
        (buildBatchMap base ch queue) ip.1 ip.2)

/-- Concrete one-shot text task (repeat_interval None). -/
def taskOneShot : Task :=
  { task_id := "t1", owner_id := 1, chat_id := -100,
    content_type := "text", content_text := "hello", file_id := none,
    entities := none, pin := false, delete_old := false,
    auto_delete_offset := 0, repeat_interval := none, start_time := 0,
    last_msg_id := none, reply_target := none }

/-- Concrete repeating text task (one hour). -/
def taskRep : Task :=
  { taskOneShot with task_id := "t2", repeat_interval := some "minutes=60" }

/-- Fire in which every external call succeeds and send returns id 7. -/
def envSendOk : FireEnv :=
  { now := 1000, nowDel := 1001, sessionOk := true, abortEarly := false,
    sendResult := some 7, nextRunWriteOk := true }

/-- Fire in which the publish fails (send raised or returned nothing). -/
def envSendFail : FireEnv :=
  { envSendOk with sendResult := none }

/-- Fire in which get_session found no stored session. -/
def envNoSession : FireEnv :=
  { envSendOk with sessionOk := false, sendResult := none }

/-- Repeating task with delete_old set, whose reply_target is task b. -/
def taskDelPrev : Task :=
  { taskRep with
    task_id := "a"
    delete_old := true
    reply_target := some "b"
    last_msg_id := some 5 }

/-- Stored row of task b whose last published message is the same id 5
that task a would delete. -/
def taskRefSame : Task :=
  { taskRep with task_id := "b", last_msg_id := some 5 }

/-- Stored row of task b whose last published message is a different id. -/
def taskRefOther : Task :=
  { taskRep with task_id := "b", last_msg_id := some 9 }

/-- First upsert of a record: content "a", a stored last message id. -/
def taskV1 : Task :=
  { taskRep with content_text := "a", last_msg_id := some 5 }

/-- Second upsert under the same task_id: new content, fresh state. -/
def taskV2 : Task :=
  { taskV1 with content_text := "b", last_msg_id := none, start_time := 99 }

/-- Repeating daily task with a one-hour auto-delete offset. -/
def taskAd : Task :=
  { taskRep with
    task_id := "t3"
    auto_delete_offset := 60
    repeat_interval := some "minutes=1440" }

/-- Same task with an offset not smaller than the interval. -/
def taskAdBig : Task :=
  { taskAd with auto_delete_offset := 2000 }

/-- A three-post batch: post 1 replies to post 0 by captured message id,
post 2 carries a reference that points outside the batch. -/
def batchQueue : List Post :=
  [capturePost "text" "one" none none 101 none,
   capturePost "text" "two" none none 102 (some 101),
   capturePost "text" "three" none none 103 (some 999)]

/-- find? by task_id commutes with mapping a task_id-preserving update
over the store. -/
theorem find_map_taskid (f : Task → Task)
    (hf : ∀ r, (f r).task_id = r.task_id) (store : Store) (tid : String) :
    (store.map f).find? (fun r => r.task_id == tid) =
      (store.find? (fun r => r.task_id == tid)).map f := by
  induction store with
  | nil => rfl
  | cons r tl ih =>
    by_cases h : (r.task_id == tid) = true
    · simp [List.find?_cons_of_pos, h, hf r]
    · simp only [List.map_cons]
      rw [List.find?_cons_of_neg, List.find?_cons_of_neg]
      · exact ih
      · simpa using h
      · simpa [hf r] using h

theorem get_single_update_last_msg (store : Store) (tid : String)
    (m : Nat) (tid2 : String) :
    get_single_task (update_last_msg store tid m) tid2 =
      (get_single_task store tid2).map
        (fun r => if r.task_id == tid then { r with last_msg_id := some m }
                  else r) := by
  unfold get_single_task update_last_msg
  apply find_map_taskid
  intro r
  by_cases h : (r.task_id == tid) = true <;> simp [h]

theorem get_single_update_next_run (store : Store) (tid : String)
    (tnew : Int) (tid2 : String) :
    get_single_task (update_next_run store tid tnew) tid2 =
      (get_single_task store tid2).map
        (fun r => if r.task_id == tid then { r with start_time := tnew }
                  else r) := by
  unfold get_single_task update_next_run
  apply find_map_taskid
  intro r
  by_cases h : (r.task_id == tid) = true <;> simp [h]

theorem get_single_delete_self (store : Store) (tid : String) :
    get_single_task (delete_task store tid) tid = none := by
  unfold get_single_task delete_task
  rw [List.find?_eq_none]
  intro x hx
  rcases List.mem_filter.mp hx with ⟨_, hpx⟩
  simpa using hpx

theorem last_msg_update_next_run (store : Store) (tid : String)
    (tnew : Int) (tid2 : String) :
    get_task_last_msg_id (update_next_run store tid tnew) tid2 =
      get_task_last_msg_id store tid2 := by
  unfold get_task_last_msg_id
  have hrw : (update_next_run store tid tnew).find? (fun r => r.task_id == tid2)
      = (store.find? (fun r => r.task_id == tid2)).map
          (fun r => if r.task_id == tid then { r with start_time := tnew }
                    else r) :=
    get_single_update_next_run store tid tnew tid2
  rw [hrw]
  cases h : store.find? (fun r => r.task_id == tid2) with
  | none => rfl
  | some r =>
    by_cases hh : r.task_id = tid <;> simp [hh]

theorem isSome_update_last_msg (store : Store) (tid : String) (m : Nat)
    (tid2 : String) :
    (get_single_task (update_last_msg store tid m) tid2).isSome =
      (get_single_task store tid2).isSome := by
  rw [get_single_update_last_msg]
  cases get_single_task store tid2 <;> rfl

theorem isSome_update_next_run (store : Store) (tid : String) (tnew : Int)
    (tid2 : String) :
    (get_single_task (update_next_run store tid tnew) tid2).isSome =
      (get_single_task store tid2).isSome := by
  rw [get_single_update_next_run]
  cases get_single_task store tid2 <;> rfl

theorem last_msg_as_bind (store : Store) (tid : String) :
    get_task_last_msg_id store tid =
      (get_single_task store tid).bind (fun r => r.last_msg_id) := by
  unfold get_task_last_msg_id get_single_task
  cases store.find? (fun r => r.task_id == tid) <;> rfl

theorem last_msg_update_last_msg_self (store : Store) (tid : String)
    (m : Nat) (h : (get_single_task store tid).isSome = true) :
    get_task_last_msg_id (update_last_msg store tid m) tid = some m := by
  rw [last_msg_as_bind, get_single_update_last_msg]
  cases hf : get_single_task store tid with
  | none => rw [hf] at h; simp at h
  | some r =>
    unfold get_single_task at hf
    have hpred : (r.task_id == tid) = true :=
      @List.find?_some Task (fun r => r.task_id == tid) r store hf
    have hq : r.task_id = tid := by simpa using hpred
    simp [hq]

theorem jobFireBody_isSome (tid : String) (t : Task) (env : FireEnv)
    (store : Store) (tid2 : String)
    (hrep : truthyStr t.repeat_interval = true) :
    (get_single_task (jobFireBody tid t env store).1 tid2).isSome =
      (get_single_task store tid2).isSome := by
  unfold jobFireBody
  cases hs : env.sessionOk
  · simp
  · cases ha : env.abortEarly
    · cases hat : attemptsSend t.content_type
      · simp [hat]
      · cases hsr : env.sendResult with
        | none => simp [hat]
        | some mid => simp [hat, hrep, isSome_update_last_msg]
    · simp

theorem jobFireBody_last_msg (t : Task) (env : FireEnv) (store : Store)
    (hrep : truthyStr t.repeat_interval = true)
    (h : (get_single_task store t.task_id).isSome = true) :
    get_task_last_msg_id (jobFireBody t.task_id t env store).1 t.task_id =
      (if fireSucceeded t env then env.sendResult
       else get_task_last_msg_id store t.task_id) := by
  unfold jobFireBody fireSucceeded
  cases hs : env.sessionOk
  · simp
  · cases ha : env.abortEarly
    · cases hat : attemptsSend t.content_type
      · simp [hat]
      · cases hsr : env.sendResult with
        | none => simp [hat]
        | some mid =>
          simp [hat, hrep, last_msg_update_last_msg_self store t.task_id mid h]
    · simp

theorem jobFire_isSome (tid : String) (t : Task) (env : FireEnv)
    (store : Store) (tid2 : String)
    (hrep : truthyStr t.repeat_interval = true) :
    (get_single_task (jobFire tid t env store).1 tid2).isSome =
      (get_single_task store tid2).isSome := by
  unfold jobFire
  cases hm : parseIntervalMins (t.repeat_interval.getD "") with
  | none => simp [hrep, hm, jobFireBody_isSome tid t env store tid2 hrep]
  | some m =>
    cases hw : env.nextRunWriteOk
    · simp [hrep, hm, hw, jobFireBody_isSome tid t env store tid2 hrep]
    · simp [hrep, hm, hw, isSome_update_next_run,
        jobFireBody_isSome tid t env store tid2 hrep]

theorem jobFire_last_msg_step (t : Task) (env : FireEnv) (store : Store)
    (hrep : truthyStr t.repeat_interval = true)
    (h : (get_single_task store t.task_id).isSome = true) :
    get_task_last_msg_id (jobFire t.task_id t env store).1 t.task_id =
      (if fireSucceeded t env then env.sendResult
       else get_task_last_msg_id store t.task_id) := by
  unfold jobFire
  cases hm : parseIntervalMins (t.repeat_interval.getD "") with
  | none => simp [hrep, hm, jobFireBody_last_msg t env store hrep h]
  | some m =>
    cases hw : env.nextRunWriteOk
    · simp [hrep, hm, hw, jobFireBody_last_msg t env store hrep h]
    · simp [hrep, hm, hw, last_msg_update_next_run,
        jobFireBody_last_msg t env store hrep h]

theorem bmFold_lookup (base ch : Nat) (l : List (Nat × Post))
    (acc : Nat → Option String) (r : Nat) :
    (l.foldl (bmStep base ch) acc) r =
      (match l.reverse.find? (fun ip => r == ip.2.input_msg_id) with
       | some ip => some (tidOf base ch ip.1)
       | none => acc r) := by
  induction l generalizing acc with
  | nil => rfl
  | cons ip tl ih =>
    rw [List.foldl_cons, ih, List.reverse_cons, List.find?_append]
    cases h : tl.reverse.find? (fun q => r == q.2.input_msg_id) with
    | some q => rfl
    | none =>
      by_cases hr : (r == ip.2.input_msg_id) = true
      · simp [bmStep, hr]
      · simp [bmStep, hr]

theorem buildBatchMap_lookup (base ch : Nat) (queue : List Post) (r : Nat) :
    buildBatchMap base ch queue r =
      (match queue.enum.reverse.find? (fun ip => r == ip.2.input_msg_id) with
       | some ip => some (tidOf base ch ip.1)
       | none => none) :=
  bmFold_lookup base ch queue.enum (fun _ => none) r

theorem buildBatchMap_some (base ch : Nat) (queue : List Post)
    (r : Nat) (s : String)
    (h : buildBatchMap base ch queue r = some s) :
    ∃ j q, queue[j]? = some q ∧ q.input_msg_id = r ∧ s = tidOf base ch j := by
  rw [buildBatchMap_lookup] at h
  cases hf : queue.enum.reverse.find? (fun ip => r == ip.2.input_msg_id) with
  | none => rw [hf] at h; simp at h
  | some ip =>
    rw [hf] at h
    have hmem : ip ∈ queue.enum := by
      have := List.mem_of_find?_eq_some hf
      exact (List.mem_reverse).mp this
    have hpred : (r == ip.2.input_msg_id) = true :=
      @List.find?_some (Nat × Post) (fun ip => r == ip.2.input_msg_id) ip
        queue.enum.reverse hf
    have hget : queue[ip.1]? = some ip.2 := by
      have hm2 : (ip.1, ip.2) ∈ queue.enum := by
        simpa using hmem
      exact List.mk_mem_enum_iff_getElem?.mp hm2
    refine ⟨ip.1, ip.2, hget, ?_, ?_⟩
    · have : r = ip.2.input_msg_id := by simpa using hpred
      omega
    · simpa using h.symm

theorem buildBatchMap_none (base ch : Nat) (queue : List Post) (r : Nat)
    (h : ∀ q ∈ queue, q.input_msg_id ≠ r) :
    buildBatchMap base ch queue r = none := by
  rw [buildBatchMap_lookup]
  have hf : queue.enum.reverse.find? (fun ip => r == ip.2.input_msg_id) = none := by
    rw [List.find?_eq_none]
    intro ip hip
    have hmem : ip ∈ queue.enum := (List.mem_reverse).mp hip
    have hq : ip.2 ∈ queue := by
      have := List.mk_mem_enum_iff_getElem?.mp (by simpa using hmem)
      exact List.getElem?_mem this
    have := h ip.2 hq
    simp [this.symm]
  rw [hf]

theorem buildBatchMap_isSome (base ch : Nat) (queue : List Post)
    (r : Nat) (j : Nat) (q : Post)
    (hget : queue[j]? = some q) (hr : q.input_msg_id = r) :
    (buildBatchMap base ch queue r).isSome = true := by
  rw [buildBatchMap_lookup]
  cases hf : queue.enum.reverse.find? (fun ip => r == ip.2.input_msg_id) with
  | some ip => rfl
  | none =>
    exfalso
    rw [List.find?_eq_none] at hf
    have hmem : (j, q) ∈ queue.enum := List.mk_mem_enum_iff_getElem?.mpr hget
    have := hf (j, q) ((List.mem_reverse).mpr hmem)
    simp [hr] at this

theorem save_task_conflict (store : Store) (t : Task) (r : Task)
    (h : get_single_task store t.task_id = some r) :
    get_single_task (save_task store t) t.task_id =
      some { r with last_msg_id := t.last_msg_id,
                    start_time := t.start_time } := by
  have hpred : (r.task_id == t.task_id) = true := by
    unfold get_single_task at h
    exact @List.find?_some Task (fun x => x.task_id == t.task_id) r store h
  have hany : store.any (fun x => x.task_id == t.task_id) = true := by
    rw [List.any_eq_true]
    unfold get_single_task at h
    exact ⟨r, List.mem_of_find?_eq_some h, hpred⟩
  unfold save_task
  simp only [hany, if_true]
  have hmap := find_map_taskid
    (fun x => if x.task_id == t.task_id then
        { x with last_msg_id := t.last_msg_id, start_time := t.start_time }
      else x)
    (by intro x; by_cases hx : (x.task_id == t.task_id) = true <;> simp [hx])
    store t.task_id
  unfold get_single_task
  unfold get_single_task at h
  rw [hmap, h]
  have hq : r.task_id = t.task_id := by simpa using hpred
  simp [hq]

theorem save_task_idem (store : Store) (t : Task) :
    save_task (save_task store t) t = save_task store t := by
  unfold save_task
  cases hany : store.any (fun x => x.task_id == t.task_id) with
  | true =>
    simp only [hany, if_true]
    have hany2 : (store.map (fun x => if x.task_id == t.task_id then
        { x with last_msg_id := t.last_msg_id, start_time := t.start_time }
      else x)).any (fun x => x.task_id == t.task_id) = true := by
      rw [List.any_eq_true] at hany ⊢
      rcases hany with ⟨x, hx, hpx⟩
      refine ⟨if x.task_id == t.task_id then
        { x with last_msg_id := t.last_msg_id, start_time := t.start_time }
      else x, List.mem_map_of_mem _ hx, ?_⟩
      simp [hpx]
    simp only [hany2, if_true, List.map_map]
    apply List.map_congr_left
    intro a _
    by_cases ha : a.task_id = t.task_id
    · simp [ha]
    · simp [ha]
  | false =>
    simp only [hany, if_false, Bool.false_eq_true]
    have hany2 : (store ++ [t]).any (fun x => x.task_id == t.task_id) = true := by
      rw [List.any_eq_true]
      exact ⟨t, by simp, by simp⟩
    simp only [hany2, if_true, List.map_append]
    have hall : ∀ x ∈ store, ¬ x.task_id = t.task_id := by
      intro x hx
      have := List.any_eq_false.mp hany x hx
      simpa using this
    have hstore : store.map (fun x => if x.task_id == t.task_id then
        { x with last_msg_id := t.last_msg_id, start_time := t.start_time }
      else x) = store := by
      calc store.map (fun x => if x.task_id == t.task_id then
              { x with last_msg_id := t.last_msg_id,
                       start_time := t.start_time }
            else x)
          = store.map id := by
            apply List.map_congr_left
            intro a ha
            simp [hall a ha]
        _ = store := List.map_id store
    rw [hstore]
    simp

theorem save_task_count_one (store : Store) (t : Task)
    (h : store.countP (fun x => x.task_id == t.task_id) = 0) :
    (save_task (save_task store t) t).countP
      (fun x => x.task_id == t.task_id) = 1 := by
  rw [save_task_idem]
  have hany : store.any (fun x => x.task_id == t.task_id) = false := by
    rw [List.any_eq_false]
    intro x hx
    have := List.countP_eq_zero.mp h x hx
    simpa using this
  unfold save_task
  simp only [hany, if_false, Bool.false_eq_true]
  rw [List.countP_append, h]
  simp

theorem jobFire_filter_eq (tid : String) (t : Task) (env : FireEnv)
    (store : Store) (p : Ev → Bool)
    (hp : ∀ nr, p (Ev.updateNextRun nr) = false) :
    (jobFire tid t env store).2.filter p =
      (jobFireBody tid t env store).2.filter p := by
  unfold jobFire
  cases hrep : truthyStr t.repeat_interval
  · simp [hrep]
  · cases hm : parseIntervalMins (t.repeat_interval.getD "")
    · simp [hrep, hm]
    · cases hw : env.nextRunWriteOk
      · simp [hrep, hm, hw]
      · simp [hrep, hm, hw, List.filter_append, hp]

theorem jobFireBody_send_failed (tid : String) (t : Task) (env : FireEnv)
    (store : Store) (hsr : env.sendResult = none) :
    (jobFireBody tid t env store).1 = store ∧
    ∀ (p : Ev → Bool), (∀ c v, p (Ev.deleteMsg c v) = false) →
      (∀ ro, p (Ev.send ro) = false) →
      (jobFireBody tid t env store).2.filter p = [] := by
  unfold jobFireBody
  rw [hsr]
  cases hs : env.sessionOk
  · simp
  · cases ha : env.abortEarly
    · cases hat : attemptsSend t.content_type
      · refine ⟨rfl, ?_⟩
        intro p h1 _
        cases hrl : get_task_last_msg_id store t.task_id with
        | none => simp
        | some v =>
          by_cases hc :
            (t.delete_old && v != 0 && !(replyIdOf store t == some v)) = true
          · simp [hc, h1]
          · simp [hc]
      · refine ⟨rfl, ?_⟩
        intro p h1 h2
        cases hrl : get_task_last_msg_id store t.task_id with
        | none => simp [h2]
        | some v =>
          by_cases hc :
            (t.delete_old && v != 0 && !(replyIdOf store t == some v)) = true
          · simp [hc, h1, h2]
          · simp [hc, h2]
    · simp

theorem jobFireBody_no_next_run (tid : String) (t : Task) (env : FireEnv)
    (store : Store) :
    (jobFireBody tid t env store).2.filter isUpdateNextRunEv = [] := by
  unfold jobFireBody
  cases hs : env.sessionOk
  · simp
  · cases ha : env.abortEarly
    · cases hat : attemptsSend t.content_type
      · cases hrl : get_task_last_msg_id store t.task_id <;>
          simp [isUpdateNextRunEv,
            apply_ite (List.filter isUpdateNextRunEv), ite_self]
      · cases hsr : env.sendResult <;>
          cases hrl : get_task_last_msg_id store t.task_id <;>
          cases hpm : parseIntervalMins (t.repeat_interval.getD "") <;>
          simp [isUpdateNextRunEv,
            apply_ite (List.filter isUpdateNextRunEv),
            apply_ite (fun x : Store × List Ev => x.2), ite_self]
    · simp

theorem jobFireBody_sched_once (tid : String) (t : Task) (env : FireEnv)
    (store : Store) (mid : Nat)
    (hs : env.sessionOk = true) (ha : env.abortEarly = false)
    (hat : attemptsSend t.content_type = true)
    (hsr : env.sendResult = some mid)
    (hoff : t.auto_delete_offset = 60)
    (hint : t.repeat_interval = some "minutes=1440") :
    (jobFireBody tid t env store).2.filter isScheduleDelEv =
      [Ev.scheduleDel (env.nowDel + 60 * 1380) mid] := by
  unfold jobFireBody
  rw [hs, ha, hat, hsr, hoff, hint]
  have hpm : parseIntervalMins ((some "minutes=1440").getD "") = some 1440 := by
    decide
  have htr : truthyStr (some "minutes=1440") = true := by decide
  rw [hpm]
  cases hrl : get_task_last_msg_id store t.task_id <;>
    simp [isScheduleDelEv, htr,
      apply_ite (List.filter isScheduleDelEv),
      apply_ite (fun x : Store × List Ev => x.2), ite_self]

theorem jobFireBody_no_sched (tid : String) (t : Task) (env : FireEnv)
    (store : Store) (m : Int)
    (hm : parseIntervalMins (t.repeat_interval.getD "") = some m)
    (hle : m ≤ t.auto_delete_offset) :
    (jobFireBody tid t env store).2.filter isScheduleDelEv = [] := by
  have hcond : (m - t.auto_delete_offset > 0) = False :=
    eq_false (by omega)
  unfold jobFireBody
  rw [hm]
  cases hs : env.sessionOk
  · simp
  · cases ha : env.abortEarly
    · cases hat : attemptsSend t.content_type
      · cases hrl : get_task_last_msg_id store t.task_id <;>
          simp [isScheduleDelEv,
            apply_ite (List.filter isScheduleDelEv), ite_self]
      · cases hsr : env.sendResult <;>
          cases hrl : get_task_last_msg_id store t.task_id <;>
          simp [isScheduleDelEv, hcond,
            apply_ite (List.filter isScheduleDelEv),
            apply_ite (fun x : Store × List Ev => x.2), ite_self]
    · simp

theorem jobFireBody_delete_first (tid : String) (t : Task) (env : FireEnv)
    (store : Store) (v : Nat)
    (hs : env.sessionOk = true) (ha : env.abortEarly = false)
    (hat : attemptsSend t.content_type = true)
    (hdo : t.delete_old = true)
    (hrl : get_task_last_msg_id store t.task_id = some v)
    (hv : v ≠ 0)
    (hne : replyIdOf store t ≠ some v) :
    (jobFireBody tid t env store).2[0]? = some (Ev.deleteMsg t.chat_id v) ∧
    (jobFireBody tid t env store).2[1]? = some (Ev.send (replyIdOf store t)) := by
  have hc : (t.delete_old && v != 0 && !(replyIdOf store t == some v)) = true := by
    simp [hdo, hv, hne]
  unfold jobFireBody
  rw [hs, ha, hat, hrl]
  cases hsr : env.sendResult <;>
    simp [hc, apply_ite (fun x : Store × List Ev => x.2)]
  refine ⟨?_, ?_⟩ <;> split <;> simp

theorem boot_reload_arm_eq (store : Store) :
    ∀ jobs, boot_reload_arm store jobs = jobs ++ store.map Task.task_id := by
  induction store with
  | nil => intro jobs; simp [boot_reload_arm]
  | cons r tl ih =>
    intro jobs
    unfold boot_reload_arm at ih ⊢
    rw [List.foldl_cons]
    have hcall : pythonCallFails add_scheduler_job_paramCount 2 = false := by
      decide
    rw [hcall] at ih ⊢
    simp only [Bool.false_eq_true, if_false, List.map_cons] at ih ⊢
    rw [ih (jobs ++ [r.task_id])]
    simp

/-- C7 counterexample: upserting a changed record under the same task_id
keeps the previously stored content_text (the stored record does not
equal the last write) and overwrites the stored last_msg_id with the new
record value none (so a reschedule that carries a fresh record does not
preserve the stored reference). -/
theorem upsert_not_last_write_wins_cex :
    taskV2.task_id = taskV1.task_id ∧
    taskV1.content_text = "a" ∧ taskV2.content_text = "b" ∧
    taskV1.last_msg_id = some 5 ∧ taskV2.last_msg_id = none ∧
    (save_task [taskV1] taskV2).map Task.content_text = ["a"] ∧
    (save_task [taskV1] taskV2).map Task.last_msg_id = [none] := by
  decide

/-- C7 amended: save_task is idempotent on task_id and a double upsert
into a store without that key yields exactly one matching record; but on
conflict only last_msg_id and start_time are updated to the values of
the incoming record -- every other stored field keeps its previous
value, and the stored last_msg_id is always overwritten with the
incoming value rather than preserved. -/
theorem upsert_conflict_semantics :
    ∀ (store : Store) (t : Task),
      save_task (save_task store t) t = save_task store t ∧
      (∀ r, get_single_task store t.task_id = some r →
        get_single_task (save_task store t) t.task_id =
          some { r with last_msg_id := t.last_msg_id,
                        start_time := t.start_time }) ∧
      (store.countP (fun x => x.task_id == t.task_id) = 0 →
        (save_task (save_task store t) t).countP
          (fun x => x.task_id == t.task_id) = 1) := by
  intro store t
  exact ⟨save_task_idem store t,
    fun r h => save_task_conflict store t r h,
    fun h => save_task_count_one store t h⟩

/-- C7 witness: the conflict clause evaluated on the concrete records
taskV1 and taskV2. -/
theorem upsert_conflict_semantics_witness :
    get_single_task (save_task [taskV1] taskV2) taskV2.task_id =
      some { taskV1 with last_msg_id := taskV2.last_msg_id,
                         start_time := taskV2.start_time } :=
  (upsert_conflict_semantics [taskV1] taskV2).2.1 taskV1 (by decide)

/-- C2: the submission path persists the task but arms nothing, because
add_scheduler_job is called with one argument while it takes two, and
the TypeError is caught and logged; the boot-time reload calls it with
two arguments and arms every stored task. -/
theorem submission_path_never_arms :
    ∀ (store : Store) (jobs : List String) (t : Task),
      create_task_submit store jobs t = (save_task store t, jobs) ∧
      boot_reload_arm store jobs = jobs ++ store.map Task.task_id ∧
      pythonCallFails add_scheduler_job_paramCount 1 = true ∧
      pythonCallFails add_scheduler_job_paramCount 2 = false := by
  intro store jobs t
  refine ⟨?_, boot_reload_arm_eq store jobs, by decide, by decide⟩
  unfold create_task_submit
  have hcall : pythonCallFails add_scheduler_job_paramCount 1 = true := by
    decide
  rw [hcall]
  simp

/-- C1 counterexample: a one-shot task whose publish fails is NOT
removed from the Task Store after the fire; the store is unchanged. -/
theorem one_shot_failed_publish_remains_cex :
    taskOneShot.repeat_interval = none ∧
    envSendFail.sendResult = none ∧
    attemptsSend taskOneShot.content_type = true ∧
    (jobFire "t1" taskOneShot envSendFail [taskOneShot]).1 = [taskOneShot] := by
  decide

/-- C1 amended: a one-shot task is deleted from the Task Store after a
fire whose publish succeeds; after a fire whose publish fails the store
is left unchanged, so the task remains. -/
theorem one_shot_removed_iff_publish_succeeded :
    ∀ (tid : String) (t : Task) (env : FireEnv) (store : Store),
      truthyStr t.repeat_interval = false →
      ((∀ mid, env.sessionOk = true → env.abortEarly = false →
          attemptsSend t.content_type = true → env.sendResult = some mid →
          get_single_task (jobFire tid t env store).1 tid = none) ∧
       (env.sendResult = none → (jobFire tid t env store).1 = store)) := by
  intro tid t env store hrep
  constructor
  · intro mid hs ha hat hsr
    unfold jobFire jobFireBody
    rw [hs, ha, hat, hsr, hrep]
    simp [hrep, get_single_delete_self]
  · intro hsr
    unfold jobFire
    rw [hrep]
    simp only [Bool.false_eq_true, if_false]
    exact (jobFireBody_send_failed tid t env store hsr).1

/-- C1 witness: the success side evaluated on the concrete one-shot
task, and the failure side on the same task with a failing publish. -/
theorem one_shot_removed_iff_publish_succeeded_witness :
    get_single_task (jobFire "t1" taskOneShot envSendOk [taskOneShot]).1 "t1" =
      none ∧
    (jobFire "t1" taskOneShot envSendFail [taskOneShot]).1 = [taskOneShot] :=
  ⟨(one_shot_removed_iff_publish_succeeded "t1" taskOneShot envSendOk
      [taskOneShot] (by decide)).1 7 (by decide) (by decide) (by decide)
      (by decide),
   (one_shot_removed_iff_publish_succeeded "t1" taskOneShot envSendFail
      [taskOneShot] (by decide)).2 (by decide)⟩

/-- C4 counterexample: a fire of a repeating task whose publish fails
(the case of permanently vanished source content is one of the caught
send failures) neither deletes the task nor emits any task deletion;
the task is still in the store with only its next run time advanced. -/
theorem vanished_content_not_terminal_cex :
    envSendFail.sendResult = none ∧
    truthyStr taskRep.repeat_interval = true ∧
    (jobFire "t2" taskRep envSendFail [taskRep]).2.filter isDeleteTaskEv = [] ∧
    get_single_task (jobFire "t2" taskRep envSendFail [taskRep]).1 "t2" =
      some { taskRep with start_time := 4600 } := by
  decide

/-- C4 amended: every publish failure is swallowed; the fire never
deletes the task from the store (no task deletion event is emitted and
every stored row survives), so a repeating task stays scheduled and a
permanently vanished source is retried on every later fire. -/
theorem publish_failure_never_terminal :
    ∀ (tid : String) (t : Task) (env : FireEnv) (store : Store),
      env.sendResult = none →
      ((jobFire tid t env store).2.filter isDeleteTaskEv = [] ∧
       ∀ tid2, (get_single_task (jobFire tid t env store).1 tid2).isSome =
         (get_single_task store tid2).isSome) := by
  intro tid t env store hsr
  obtain ⟨hst, hfil⟩ := jobFireBody_send_failed tid t env store hsr
  have hbodyfil : (jobFireBody tid t env store).2.filter isDeleteTaskEv = [] :=
    hfil isDeleteTaskEv (by intro c v; rfl) (by intro ro; rfl)
  constructor
  · rw [jobFire_filter_eq tid t env store isDeleteTaskEv (by intro nr; rfl)]
    exact hbodyfil
  · intro tid2
    unfold jobFire
    cases hrep : truthyStr t.repeat_interval
    · simp [hst]
    · cases hm : parseIntervalMins (t.repeat_interval.getD "")
      · simp [hst]
      · cases hw : env.nextRunWriteOk
        · simp [hst]
        · simp [isSome_update_next_run, hst]

/-- C4 witness: the amended statement evaluated on the concrete
repeating task with a failing publish. -/
theorem publish_failure_never_terminal_witness :
    (jobFire "t2" taskRep envSendFail [taskRep]).2.filter isDeleteTaskEv = [] ∧
    (get_single_task (jobFire "t2" taskRep envSendFail [taskRep]).1 "t2").isSome =
      (get_single_task [taskRep] "t2").isSome :=
  ⟨(publish_failure_never_terminal "t2" taskRep envSendFail [taskRep]
      (by decide)).1,
   (publish_failure_never_terminal "t2" taskRep envSendFail [taskRep]
      (by decide)).2 "t2"⟩

/-- C3 counterexample: in a successful fire of a repeating task the
persisted next-run write happens at the END of the trace, after the
publish (index 0) and the last-message store update (index 1) have
completed, not before them as the claim states. -/
theorem next_run_persisted_after_side_effects_cex :
    (jobFire "t2" taskRep envSendOk [taskRep]).2 =
      [Ev.send none, Ev.updateLastMsg 7, Ev.updateNextRun 4600] ∧
    (jobFire "t2" taskRep envSendOk [taskRep]).2[1]? =
      some (Ev.updateLastMsg 7) ∧
    (jobFire "t2" taskRep envSendOk [taskRep]).2[2]? =
      some (Ev.updateNextRun 4600) := by
  decide

/-- C3 amended: the next run time now + interval is computed from the
timestamp taken at the start of the fire, before any side effect, but it
is persisted to the Task Store only in the finally step, strictly after
all Execution Worker side effects: the whole fire trace is the body
trace followed by the single persist event, and the body trace contains
no persist event. -/
theorem next_run_computed_first_persisted_last :
    ∀ (tid : String) (t : Task) (env : FireEnv) (store : Store) (m : Int),
      truthyStr t.repeat_interval = true →
      parseIntervalMins (t.repeat_interval.getD "") = some m →
      env.nextRunWriteOk = true →
      ((jobFire tid t env store).2 =
        (jobFireBody tid t env store).2 ++
          [Ev.updateNextRun (env.now + 60 * m)] ∧
       (jobFireBody tid t env store).2.filter isUpdateNextRunEv = []) := by
  intro tid t env store m hrep hm hw
  refine ⟨?_, jobFireBody_no_next_run tid t env store⟩
  unfold jobFire
  rw [hrep, hm, hw]
  simp

/-- C3 witness: the amended statement evaluated on the concrete
repeating task with a successful publish. -/
theorem next_run_computed_first_persisted_last_witness :
    (jobFire "t2" taskRep envSendOk [taskRep]).2 =
      (jobFireBody "t2" taskRep envSendOk [taskRep]).2 ++
        [Ev.updateNextRun (envSendOk.now + 60 * 60)] :=
  (next_run_computed_first_persisted_last "t2" taskRep envSendOk [taskRep] 60
    (by decide) (by decide) (by decide)).1

/-- C5: across any sequence of fires of a repeating task, the stored
last_msg_id equals the message id returned by the most recent successful
publish in the sequence, and keeps its prior value while no publish has
succeeded; a failed attempt never changes it. -/
theorem last_msg_only_successful_publish :
    ∀ (t : Task) (envs : List FireEnv) (store : Store),
      truthyStr t.repeat_interval = true →
      (get_single_task store t.task_id).isSome = true →
      get_task_last_msg_id (runFires t.task_id t envs store) t.task_id =
        lastSuccessRef t envs (get_task_last_msg_id store t.task_id) := by
  intro t envs
  induction envs with
  | nil => intro store _ _; rfl
  | cons e es ih =>
    intro store hrep hsome
    unfold runFires lastSuccessRef
    rw [List.foldl_cons, List.foldl_cons]
    have hstep := jobFire_last_msg_step t e store hrep hsome
    have hsome2 : (get_single_task (jobFire t.task_id t e store).1
        t.task_id).isSome = true := by
      rw [jobFire_isSome t.task_id t e store t.task_id hrep]
      exact hsome
    have := ih (jobFire t.task_id t e store).1 hrep hsome2
    unfold runFires lastSuccessRef at this
    rw [this, hstep]

/-- C5 witness: two fires, the first successful and the second failed,
leave the message id of the first publish in the store. -/
theorem last_msg_only_successful_publish_witness :
    get_task_last_msg_id
      (runFires taskRep.task_id taskRep [envSendOk, envSendFail] [taskRep])
      taskRep.task_id =
      lastSuccessRef taskRep [envSendOk, envSendFail]
        (get_task_last_msg_id [taskRep] taskRep.task_id) :=
  last_msg_only_successful_publish taskRep [envSendOk, envSendFail] [taskRep]
    (by decide) (by decide)

theorem jobFire_trace_split (tid : String) (t : Task) (env : FireEnv)
    (store : Store) :
    (jobFire tid t env store).2 = (jobFireBody tid t env store).2 ∨
    ∃ nr, (jobFire tid t env store).2 =
      (jobFireBody tid t env store).2 ++ [Ev.updateNextRun nr] := by
  unfold jobFire
  cases hrep : truthyStr t.repeat_interval
  · left; rfl
  · cases hm : parseIntervalMins (t.repeat_interval.getD "") with
    | none => left; rfl
    | some m =>
      cases hw : env.nextRunWriteOk
      · left; rfl
      · right; exact ⟨env.now + 60 * m, rfl⟩

/-- C6 counterexample: with delete_previous set and a non-null stored
prior reference, the worker skips the delete entirely when the prior
reference equals the resolved reply id (the safety check at
src/main.py line 1261), contradicting the claim that it always deletes
exactly that reference before the send. -/
theorem delete_previous_skipped_cex :
    taskDelPrev.delete_old = true ∧
    get_task_last_msg_id [taskDelPrev, taskRefSame] "a" = some 5 ∧
    replyIdOf [taskDelPrev, taskRefSame] taskDelPrev = some 5 ∧
    (jobFire "a" taskDelPrev envSendOk [taskDelPrev, taskRefSame]).2.filter
      isDeleteMsgEv = [] := by
  decide

/-- C6 amended: with delete_previous set, a non-null non-zero stored
prior reference, and that reference different from the resolved reply
id, the worker emits the delete of exactly the stored prior reference
as its first effect and the send as its second. -/
theorem delete_previous_exact_ref_before_send :
    ∀ (tid : String) (t : Task) (env : FireEnv) (store : Store) (v : Nat),
      env.sessionOk = true → env.abortEarly = false →
      attemptsSend t.content_type = true →
      t.delete_old = true →
      get_task_last_msg_id store t.task_id = some v →
      v ≠ 0 →
      replyIdOf store t ≠ some v →
      ((jobFire tid t env store).2[0]? = some (Ev.deleteMsg t.chat_id v) ∧
       (jobFire tid t env store).2[1]? =
         some (Ev.send (replyIdOf store t))) := by
  intro tid t env store v hs ha hat hdo hrl hv hne
  obtain ⟨h0, h1⟩ :=
    jobFireBody_delete_first tid t env store v hs ha hat hdo hrl hv hne
  have hlen : 1 < (jobFireBody tid t env store).2.length :=
    (List.getElem?_eq_some_iff.mp h1).1
  rcases jobFire_trace_split tid t env store with h | ⟨nr, h⟩
  · rw [h]
    exact ⟨h0, h1⟩
  · rw [h]
    refine ⟨?_, ?_⟩
    · rw [List.getElem?_append_left (by omega)]
      exact h0
    · rw [List.getElem?_append_left hlen]
      exact h1

/-- C6 witness: the amended statement evaluated with a stored prior
reference 5 and a reply id 9. -/
theorem delete_previous_exact_ref_before_send_witness :
    (jobFire "a" taskDelPrev envSendOk [taskDelPrev, taskRefOther]).2[0]? =
      some (Ev.deleteMsg taskDelPrev.chat_id 5) ∧
    (jobFire "a" taskDelPrev envSendOk [taskDelPrev, taskRefOther]).2[1]? =
      some (Ev.send (replyIdOf [taskDelPrev, taskRefOther] taskDelPrev)) :=
  delete_previous_exact_ref_before_send "a" taskDelPrev envSendOk
    [taskDelPrev, taskRefOther] 5 (by decide) (by decide) (by decide)
    (by decide) (by decide) (by decide) (by decide)

/-- C8: after a successful publish of a repeating task with
auto_delete_offset = 60 minutes and interval = 1440 minutes, the fire
schedules exactly one deletion job, at the post-publish timestamp plus
1380 minutes; and whenever auto_delete_offset is at least the parsed
interval no deletion job is scheduled (the fire is a total function, so
no exception escapes). -/
theorem auto_delete_scheduling :
    (∀ (tid : String) (t : Task) (env : FireEnv) (store : Store) (mid : Nat),
      env.sessionOk = true → env.abortEarly = false →
      attemptsSend t.content_type = true → env.sendResult = some mid →
      t.auto_delete_offset = 60 → t.repeat_interval = some "minutes=1440" →
      (jobFire tid t env store).2.filter isScheduleDelEv =
        [Ev.scheduleDel (env.nowDel + 60 * 1380) mid]) ∧
    (∀ (tid : String) (t : Task) (env : FireEnv) (store : Store) (m : Int),
      parseIntervalMins (t.repeat_interval.getD "") = some m →
      t.auto_delete_offset ≥ m →
      (jobFire tid t env store).2.filter isScheduleDelEv = []) := by
  constructor
  · intro tid t env store mid hs ha hat hsr hoff hint
    rw [jobFire_filter_eq tid t env store isScheduleDelEv (fun _ => rfl)]
    exact jobFireBody_sched_once tid t env store mid hs ha hat hsr hoff hint
  · intro tid t env store m hm hge
    rw [jobFire_filter_eq tid t env store isScheduleDelEv (fun _ => rfl)]
    exact jobFireBody_no_sched tid t env store m hm hge

/-- C8 witness: both sides evaluated on concrete daily tasks, one with
offset 60 and one with offset 2000. -/
theorem auto_delete_scheduling_witness :
    (jobFire "t3" taskAd envSendOk [taskAd]).2.filter isScheduleDelEv =
      [Ev.scheduleDel (envSendOk.nowDel + 60 * 1380) 7] ∧
    (jobFire "t3" taskAdBig envSendOk [taskAdBig]).2.filter
      isScheduleDelEv = [] :=
  ⟨auto_delete_scheduling.1 "t3" taskAd envSendOk [taskAd] 7 (by decide)
      (by decide) (by decide) (by decide) (by decide) (by decide),
   auto_delete_scheduling.2 "t3" taskAdBig envSendOk [taskAdBig] 1440
      (by decide) (by decide)⟩

/-- C10: for every fire of a repeating task whose interval string
parses, the finally step rewrites the stored start_time to the fire
start timestamp plus the interval, for every body outcome (missing
session, failed publish, aborted body), as long as the store write
itself succeeds. -/
theorem finally_persists_next_run :
    ∀ (t : Task) (env : FireEnv) (store : Store) (m : Int),
      truthyStr t.repeat_interval = true →
      parseIntervalMins (t.repeat_interval.getD "") = some m →
      env.nextRunWriteOk = true →
      (get_single_task store t.task_id).isSome = true →
      ∃ r2, get_single_task (jobFire t.task_id t env store).1 t.task_id =
          some r2 ∧ r2.start_time = env.now + 60 * m := by
  intro t env store m hrep hm hw hsome
  unfold jobFire
  rw [hrep, hm, hw]
  simp only [Option.map_some, if_true]
  have hbody : (get_single_task (jobFireBody t.task_id t env store).1
      t.task_id).isSome = true := by
    rw [jobFireBody_isSome t.task_id t env store t.task_id hrep]
    exact hsome
  cases hf : get_single_task (jobFireBody t.task_id t env store).1 t.task_id with
  | none => rw [hf] at hbody; simp at hbody
  | some r =>
    have hpred : (r.task_id == t.task_id) = true := by
      unfold get_single_task at hf
      exact @List.find?_some Task (fun x => x.task_id == t.task_id) r _ hf
    have hq : r.task_id = t.task_id := by simpa using hpred
    refine ⟨{ r with start_time := env.now + 60 * m }, ?_, rfl⟩
    show get_single_task
        (update_next_run (jobFireBody t.task_id t env store).1 t.task_id
          (env.now + 60 * m)) t.task_id =
      some { r with start_time := env.now + 60 * m }
    rw [get_single_update_next_run, hf]
    simp [hq]

/-- C10 witness: a fire with no session still advances the stored
start_time by the interval. -/
theorem finally_persists_next_run_witness :
    ∃ r2, get_single_task
        (jobFire taskRep.task_id taskRep envNoSession [taskRep]).1
        taskRep.task_id = some r2 ∧
      r2.start_time = envNoSession.now + 60 * 60 :=
  finally_persists_next_run taskRep envNoSession [taskRep] 60 (by decide)
    (by decide) (by decide) (by decide)

theorem enum_getElem (l : List Post) (i : Nat) :
    l.enum[i]? = l[i]?.map (fun a => (i, a)) := by
  rw [List.enum_eq_enumFrom, List.getElem?_enumFrom]
  simp

theorem createBatchTasks_getElem (uid : Nat) (cid : Int)
    (interval : Option String) (startTime : Int) (stPin stDel : Bool)
    (stOffset : Int) (base ch : Nat) (queue : List Post) (i : Nat) (p : Post)
    (h : queue[i]? = some p) :
    (createBatchTasks uid cid interval startTime stPin stDel stOffset
        base ch queue)[i]? =
      some (mkBatchTask uid cid interval startTime stPin stDel stOffset
        base ch (buildBatchMap base ch queue) i p) := by
  unfold createBatchTasks
  rw [List.getElem?_map, enum_getElem, h]
  rfl

/-- C9: when the batch of one channel is created, a post whose captured
reply reference resolves in the batch map built over the WHOLE queue
gets reply_target set to a task id that belongs to a post of the same
batch with that input message id (so resolution does not depend on
execution order); a reference matching no post of the batch, or an
absent reference, yields no reply_target for posts produced by the
capture step (which never sets reply_to_old). -/
theorem reply_chain_resolution :
    ∀ (uid : Nat) (cid : Int) (interval : Option String) (startTime : Int)
      (stPin stDel : Bool) (stOffset : Int) (base ch : Nat)
      (queue : List Post) (i : Nat) (p : Post),
      queue[i]? = some p →
      p.reply_to_old = false →
      ((∀ r s, p.reply_ref_id = some r → r ≠ 0 →
          buildBatchMap base ch queue r = some s →
          (∃ ti, (createBatchTasks uid cid interval startTime stPin stDel
              stOffset base ch queue)[i]? = some ti ∧
            ti.reply_target = some s) ∧
          (∃ (j : Nat) (q : Post) (tj : Task),
            queue[j]? = some q ∧ q.input_msg_id = r ∧
            (createBatchTasks uid cid interval startTime stPin stDel
              stOffset base ch queue)[j]? = some tj ∧
            tj.task_id = s)) ∧
       (∀ (r j : Nat) (q : Post), queue[j]? = some q → q.input_msg_id = r →
          (buildBatchMap base ch queue r).isSome = true) ∧
       (∀ r, p.reply_ref_id = some r →
          (∀ q ∈ queue, q.input_msg_id ≠ r) →
          ∃ ti, (createBatchTasks uid cid interval startTime stPin stDel
              stOffset base ch queue)[i]? = some ti ∧
            ti.reply_target = none) ∧
       (p.reply_ref_id = none →
          ∃ ti, (createBatchTasks uid cid interval startTime stPin stDel
              stOffset base ch queue)[i]? = some ti ∧
            ti.reply_target = none)) := by
  intro uid cid interval startTime stPin stDel stOffset base ch queue i p
    hqi hold
  have hti := createBatchTasks_getElem uid cid interval startTime stPin stDel
    stOffset base ch queue i p hqi
  refine ⟨?_, ?_, ?_, ?_⟩
  · intro r s hr hr0 hbm
    constructor
    · refine ⟨_, hti, ?_⟩
      show resolveReplyTarget (buildBatchMap base ch queue) base ch i p = some s
      unfold resolveReplyTarget
      rw [hr]
      simp [hbm, hr0]
    · obtain ⟨j, q, hj, hqr, hsval⟩ :=
        buildBatchMap_some base ch queue r s hbm
      have htj := createBatchTasks_getElem uid cid interval startTime stPin
        stDel stOffset base ch queue j q hj
      refine ⟨j, q,
        mkBatchTask uid cid interval startTime stPin stDel stOffset base ch
          (buildBatchMap base ch queue) j q, hj, hqr, htj, ?_⟩
      show tidOf base ch j = s
      exact hsval.symm
  · intro r j q hj hqr
    exact buildBatchMap_isSome base ch queue r j q hj hqr
  · intro r hr hnone
    refine ⟨_, hti, ?_⟩
    show resolveReplyTarget (buildBatchMap base ch queue) base ch i p = none
    unfold resolveReplyTarget
    rw [hr]
    simp [buildBatchMap_none base ch queue r hnone, hold]
  · intro hr
    refine ⟨_, hti, ?_⟩
    show resolveReplyTarget (buildBatchMap base ch queue) base ch i p = none
    unfold resolveReplyTarget
    rw [hr]
    simp [hold]

/-- C9 witness: in the concrete three-post batch, the second post
resolves its captured reference 101 to the task id of the first post. -/
theorem reply_chain_resolution_witness :
    ∃ ti, (createBatchTasks 1 (-100) (some "minutes=60") 0 true true 0 5 0
        batchQueue)[1]? = some ti ∧
      ti.reply_target = some (tidOf 5 0 0) :=
  ((reply_chain_resolution 1 (-100) (some "minutes=60") 0 true true 0 5 0
      batchQueue 1 (capturePost "text" "two" none none 102 (some 101))
      (by decide) (by decide)).1 101 (tidOf 5 0 0) (by decide) (by decide)
      (by decide)).1

end ChannelManager
